import Mathlib

/-!
Shallow embedding of the `chksvs` tool (busoc/chksvs, file `chksvs.go`).

Bytes are modelled as `Nat` values (each `< 256` on real inputs); byte
streams as `List Nat`, consumed front-first the way the Go code consumes
its `io.Reader`.  Machine integers are `Nat` with widths given by the
number of bytes read.  Fallible reads return `Option`; a failed read
models the non-nil error return of `binary.Read` / `ReadByte`.

Go's `binary.Read(r, order, data)` computes the packed size of `data`,
performs a single `io.ReadFull` of that many bytes, and then decodes each
struct field at its packed offset, in declaration order.  The record
decoders below are written in exactly that shape: a single length check,
then per-field decoding at fixed offsets.
-/

namespace Chksvs

/-- Take exactly `k` bytes off the front of a stream: `some (taken, rest)`
when at least `k` bytes are available, `none` otherwise (a failed
`io.ReadFull`). -/
def takeExact (k : Nat) (buf : List Nat) : Option (List Nat × List Nat) :=
  if k ≤ buf.length then some (buf.take k, buf.drop k) else none

/-- Little-endian value of a byte list (first byte least significant),
as `encoding/binary.LittleEndian` decodes fixed-width integers. -/
def leVal : List Nat → Nat
  | [] => 0
  | b :: bs => b + 256 * leVal bs

/-- Big-endian value of a byte list (first byte most significant),
as `encoding/binary.BigEndian` decodes fixed-width integers. -/
def beVal (bs : List Nat) : Nat :=
  bs.foldl (fun acc b => acc * 256 + b) 0

/-- The `len`-byte little-endian integer stored at offset `off` of `buf`. -/
def sliceLE (off len : Nat) (buf : List Nat) : Nat :=
  leVal ((buf.drop off).take len)

/-- The `len`-byte big-endian integer stored at offset `off` of `buf`. -/
def sliceBE (off len : Nat) (buf : List Nat) : Nat :=
  beVal ((buf.drop off).take len)

/-- Read a `k`-byte little-endian unsigned integer off the stream. -/
def readLE (k : Nat) (buf : List Nat) : Option (Nat × List Nat) :=
  (takeExact k buf).map fun p => (leVal p.1, p.2)

/-- Read a single byte (models `bytes.Reader.ReadByte`). -/
def readU8 (buf : List Nat) : Option (Nat × List Nat) :=
  match buf with
  | [] => none
  | b :: bs => some (b, bs)

/-- The container envelope of `chksvs.go:149-153`: anonymous struct
`{ FCC [4]byte; Seq uint32; When Timestamp }`. -/
structure Envelope where
  FCC : List Nat
  Seq : Nat
  When : Nat
  deriving Repr, DecidableEq

/-- Decode the 16-byte envelope, as `binary.Read(r, binary.BigEndian, &meta)`
at `chksvs.go:154` does: one 16-byte full read, then `FCC` = raw bytes 0-3,
`Seq` = big-endian u32 at offset 4, `When` = big-endian u64 at offset 8.
`none` models the error return when fewer than 16 bytes are available. -/
def readEnvelope (buf : List Nat) : Option (Envelope × List Nat) :=
  if 16 ≤ buf.length then
    some (⟨buf.take 4, sliceBE 4 4 buf, sliceBE 8 8 buf⟩, buf.drop 16)
  else none

/-- The 4 ASCII bytes of the `magic` constant `"SVS "` (`chksvs.go:25`). -/
def magicBytes : List Nat := [83, 86, 83, 32]

/-- The `Metadata` struct of `chksvs.go:65-83`, fields in declaration
order.  `UPI` is kept as its raw 32 bytes (the Go `UPI [32]byte`). -/
structure Metadata where
  Magic : Nat
  Acquisition : Nat
  Sequence : Nat
  Auxiliary : Nat
  Source : Nat
  X : Nat
  Y : Nat
  Format : Nat
  Drop : Nat
  OffsetX : Nat
  SizeX : Nat
  OffsetY : Nat
  SizeY : Nat
  ScaleX : Nat
  ScaleY : Nat
  Ratio : Nat
  UPI : List Nat
  deriving Repr, DecidableEq

/-- Decode the packet-metadata record exactly as
`binary.Read(r, binary.LittleEndian, &info)` at `chksvs.go:195` does with
the `Metadata` struct: a single 74-byte full read, then the fields decoded
packed, in declaration order — `Magic` (1 byte, offset 0), `Acquisition`
(8, offset 1), `Sequence` (4, offset 9), `Auxiliary` (8, offset 13),
`Source` (1, offset 21), `X` (2, offset 22), `Y` (2, offset 24), `Format`
(1, offset 26), `Drop` (2, offset 27), `OffsetX`/`SizeX`/`OffsetY`/`SizeY`
(2 each, offsets 29/31/33/35), `ScaleX`/`ScaleY` (2 each, offsets 37/39),
`Ratio` (1, offset 41), `UPI` (32 raw bytes, offset 42).  `none` models
the error return on a short stream. -/
def readMetadata (buf : List Nat) : Option (Metadata × List Nat) :=
  if 74 ≤ buf.length then
    some ({ Magic := sliceLE 0 1 buf
            Acquisition := sliceLE 1 8 buf
            Sequence := sliceLE 9 4 buf
            Auxiliary := sliceLE 13 8 buf
            Source := sliceLE 21 1 buf
            X := sliceLE 22 2 buf
            Y := sliceLE 24 2 buf
            Format := sliceLE 26 1 buf
            Drop := sliceLE 27 2 buf
            OffsetX := sliceLE 29 2 buf
            SizeX := sliceLE 31 2 buf
            OffsetY := sliceLE 33 2 buf
            SizeY := sliceLE 35 2 buf
            ScaleX := sliceLE 37 2 buf
            ScaleY := sliceLE 39 2 buf
            Ratio := sliceLE 41 1 buf
            UPI := (buf.drop 42).take 32 }, buf.drop 74)
  else none

/-- Sequentially read one little-endian integer per width in `ws` off the
stream, returning the decoded values in order.  Used to state that the
metadata record is a flat fixed-width record read field after field with
no bytes skipped between fields. -/
def readFieldsLE : List Nat → List Nat → Option (List Nat × List Nat)
  | [], buf => some ([], buf)
  | w :: ws, buf =>
    (readLE w buf).bind fun p =>
      (readFieldsLE ws p.2).map fun q => (p.1 :: q.1, q.2)

/-- The integer-field widths of the `Metadata` struct, in declaration
order (the 32-byte `UPI` buffer follows them). -/
def metadataWidths : List Nat := [1, 8, 4, 8, 1, 2, 2, 1, 2, 2, 2, 2, 2, 2, 2, 1]

/-- The metadata record decoded as a strictly sequential field-after-field
read: one integer per width of `metadataWidths`, then the 32 `UPI` bytes,
nothing read before or between the fields. -/
def readMetadataSeq (buf : List Nat) : Option (Metadata × List Nat) :=
  (readFieldsLE metadataWidths buf).bind fun p =>
    (takeExact 32 p.2).map fun q =>
      ({ Magic := p.1.getD 0 0
         Acquisition := p.1.getD 1 0
         Sequence := p.1.getD 2 0
         Auxiliary := p.1.getD 3 0
         Source := p.1.getD 4 0
         X := p.1.getD 5 0
         Y := p.1.getD 6 0
         Format := p.1.getD 7 0
         Drop := p.1.getD 8 0
         OffsetX := p.1.getD 9 0
         SizeX := p.1.getD 10 0
         OffsetY := p.1.getD 11 0
         SizeY := p.1.getD 12 0
         ScaleX := p.1.getD 13 0
         ScaleY := p.1.getD 14 0
         Ratio := p.1.getD 15 0
         UPI := q.1 }, q.2)

/-- The packet-metadata record as claim C1 states it: the first field is
the 64-bit acquisition timestamp, read immediately after the envelope with
no other bytes before it, followed by the remaining fields; 73 bytes in
all.  This definition follows the claim's words, for comparison with
`readMetadata`, which follows the source. -/
structure MetadataClaim where
  acquisition : Nat
  sequence : Nat
  auxiliary : Nat
  source : Nat
  x : Nat
  y : Nat
  format : Nat
  drop : Nat
  offsetX : Nat
  sizeX : Nat
  offsetY : Nat
  sizeY : Nat
  scaleX : Nat
  scaleY : Nat
  ratio : Nat
  upi : List Nat
  deriving Repr, DecidableEq

/-- Reader for the claimed layout of C1 (acquisition timestamp first, no
leading byte).  Follows the claim's words, not the source. -/
def readMetadataClaim (buf : List Nat) : Option (MetadataClaim × List Nat) :=
  if 73 ≤ buf.length then
    some ({ acquisition := sliceLE 0 8 buf
            sequence := sliceLE 8 4 buf
            auxiliary := sliceLE 12 8 buf
            source := sliceLE 20 1 buf
            x := sliceLE 21 2 buf
            y := sliceLE 23 2 buf
            format := sliceLE 25 1 buf
            drop := sliceLE 26 2 buf
            offsetX := sliceLE 28 2 buf
            sizeX := sliceLE 30 2 buf
            offsetY := sliceLE 32 2 buf
            sizeY := sliceLE 34 2 buf
            scaleX := sliceLE 36 2 buf
            scaleY := sliceLE 38 2 buf
            ratio := sliceLE 40 1 buf
            upi := (buf.drop 41).take 32 }, buf.drop 73)
  else none

/-- The values a strictly sequential read of one little-endian integer per
width in `ws` produces from `buf`. -/
def fieldVals : List Nat → List Nat → List Nat
  | [], _ => []
  | w :: ws, buf => leVal (buf.take w) :: fieldVals ws (buf.drop w)

theorem readLE_eq (k : Nat) (buf : List Nat) :
    readLE k buf =
      if k ≤ buf.length then some (leVal (buf.take k), buf.drop k) else none := by
  unfold readLE takeExact
  split <;> rfl

theorem readFieldsLE_eq (ws : List Nat) (buf : List Nat) :
    readFieldsLE ws buf =
      if ws.sum ≤ buf.length then some (fieldVals ws buf, buf.drop ws.sum)
      else none := by
  induction ws generalizing buf with
  | nil => simp [readFieldsLE, fieldVals]
  | cons w ws ih =>
    simp only [readFieldsLE, readLE_eq, List.sum_cons, fieldVals]
    by_cases hw : w ≤ buf.length
    · rw [if_pos hw]
      simp only [Option.bind_eq_bind, Option.some_bind, ih (buf.drop w),
        List.length_drop]
      by_cases hs : ws.sum ≤ buf.length - w
      · rw [if_pos hs, if_pos (by omega)]
        simp [List.drop_drop, Nat.add_comm]
      · rw [if_neg hs, if_neg (by omega)]
        rfl
    · rw [if_neg hw, if_neg (by omega)]
      rfl

/-- C1 (amended): the packet-metadata record decoded by `readMetadata`
(the single packed 74-byte `binary.Read` of the `Metadata` struct) equals,
on every input stream, a strictly sequential little-endian read of a
1-byte magic field first, then acquisition-timestamp (u64),
originator-seq-no (u32), auxiliary-time (u64), originator-id (u8),
source-x-size (u16), source-y-size (u16), format (u8), fdrp (u16),
roi-x-offset, roi-x-size, roi-y-offset, roi-y-size (u16 each),
scale-x-size, scale-y-size (u16 each), scale-far (u8) and the 32-byte
user-packet-info, with no other bytes read before or between the
fields. -/
theorem c1_metadata_flat_layout (buf : List Nat) :
    readMetadataSeq buf = readMetadata buf := by
  unfold readMetadataSeq readMetadata
  rw [readFieldsLE_eq, show metadataWidths.sum = 42 from rfl]
  by_cases h42 : 42 ≤ buf.length
  · rw [if_pos h42]
    simp only [Option.bind_eq_bind, Option.some_bind, takeExact, List.length_drop]
    by_cases h74 : 74 ≤ buf.length
    · rw [if_pos (show 32 ≤ buf.length - 42 by omega), if_pos h74]
      simp [metadataWidths, fieldVals, sliceLE, List.drop_drop]
    · rw [if_neg (by omega), if_neg h74]
      rfl
  · rw [if_neg h42, if_neg (by omega)]
    rfl

/-- C1 counterexample: on the concrete 74-byte record
`1, 0, 0, …, 0` the code's decoder (`readMetadata`, which reads a 1-byte
magic field first) yields acquisition-timestamp `0`, while the layout the
claim states (acquisition-timestamp first, `readMetadataClaim`) would
yield `1`; moreover the claimed layout is 73 bytes wide, and on a 73-byte
stream the code's decoder fails where the claimed one succeeds. -/
theorem c1_counterexample :
    ((readMetadata (1 :: List.replicate 73 0)).map fun p => p.1.Acquisition)
        = some 0 ∧
    ((readMetadataClaim (1 :: List.replicate 73 0)).map fun p => p.1.acquisition)
        = some 1 ∧
    readMetadata (List.replicate 73 0) = none ∧
    (readMetadataClaim (List.replicate 73 0)).isSome = true := by
  refine ⟨by decide, by decide, by decide, by decide⟩

/-- Days from 1970-01-01 to the GPS epoch 1980-01-06 of `chksvs.go:85`
(`var GPS = time.Date(1980, 1, 6, ...)`). -/
def gpsEpochDays : Nat := 3657

/-- Proleptic-Gregorian `(year, month, day)` of a day count since
1970-01-01 (the standard civil-from-days computation, restricted to
nonnegative day counts); models the date computation `time.Time` performs
when `Timestamp.Time()` / `Format` are called. -/
def civilFromDays (z : Nat) : Nat × Nat × Nat :=
  let e := z + 719468
  let era := e / 146097
  let doe := e % 146097
  let yoe := (doe - doe / 1460 + doe / 36524 - doe / 146096) / 365
  let y := yoe + era * 400
  let doy := doe - (365 * yoe + yoe / 4 - yoe / 100)
  let mp := (5 * doy + 2) / 153
  let d := doy - (153 * mp + 2) / 5 + 1
  let m := if mp < 10 then mp + 3 else mp - 9
  (if m ≤ 2 then y + 1 else y, m, d)

/-- Calendar components `(y, m, d, hh, mm, ss, ns)` of a tick-timestamp:
`t` nanoseconds after the GPS epoch, as `Timestamp.Time()`
(`chksvs.go:48-50`) computes them.  `Timestamp.Time()` casts the unsigned
tick count to the signed `time.Duration`, so this model is faithful for
tick values below `2^63`. -/
def tsParts (t : Nat) : Nat × Nat × Nat × Nat × Nat × Nat × Nat :=
  let totalSecs := t / 1000000000
  let ns := t % 1000000000
  let days := gpsEpochDays + totalSecs / 86400
  let sod := totalSecs % 86400
  let c := civilFromDays days
  (c.1, c.2.1, c.2.2, sod / 3600, sod % 3600 / 60, sod % 60, ns)

/-- Decimal rendering of `n` left-padded with zeros to width `w`
(Go's `%0wd` verb: padding only, values with more digits keep them
all). -/
def padZero (w n : Nat) : String :=
  let s := toString n
  String.mk (List.replicate (w - s.length) '0') ++ s

/-- Lowercase-hex rendering of `n` left-padded with zeros to width `w`
(Go's `%04x` verb). -/
def padHex (w n : Nat) : String :=
  let s := String.mk (Nat.toDigits 16 n)
  String.mk (List.replicate (w - s.length) '0') ++ s

/-- The compact filename timestamp of `chksvs.go:200`:
`acqt.Format("20060102_150406")`.  In Go's reference layout `2006` is the
year, `01` the month, `02` the day, `15` the hour, `04` the minute — and
`06` the two-digit year, so this layout renders `year % 100`, not the
seconds, in its final two digits. -/
def compactTimeFormat (t : Nat) : String :=
  let p := tsParts t
  padZero 4 p.1 ++ padZero 2 p.2.1 ++ padZero 2 p.2.2.1 ++ "_" ++
    padZero 2 p.2.2.2.1 ++ padZero 2 p.2.2.2.2.1 ++ padZero 2 (p.1 % 100)

/-- The fractional-second part of Go's `.999999999` layout group: nine
zero-padded digits with trailing zeros trimmed, the whole group (with its
dot) omitted when the nanoseconds are zero. -/
def fracNanos (ns : Nat) : String :=
  if ns = 0 then "" else
    "." ++ String.mk
      (((Nat.toDigits 10 (1000000000 + ns)).drop 1).reverse.dropWhile
        (fun c => c = '0')).reverse

/-- The precise timestamp rendering of `Timestamp.String()`
(`chksvs.go:44-46`): Go layout `2006-01-02T15:04:05.999999999Z`. -/
def preciseTimeFormat (t : Nat) : String :=
  let p := tsParts t
  padZero 4 p.1 ++ "-" ++ padZero 2 p.2.1 ++ "-" ++ padZero 2 p.2.2.1 ++ "T" ++
    padZero 2 p.2.2.2.1 ++ ":" ++ padZero 2 p.2.2.2.2.1 ++ ":" ++
    padZero 2 p.2.2.2.2.2.1 ++ fracNanos p.2.2.2.2.2.2 ++ "Z"

/-- The derived CSV base filename of `chksvs.go:200`:
`fmt.Sprintf("%04x_%s_%s_%06d.csv", info.Source, upi,
acqt.Format("20060102_150406"), info.Sequence)`. -/
def mkCsvFileName (source : Nat) (upi : String) (acq seq : Nat) : String :=
  padHex 4 source ++ "_" ++ upi ++ "_" ++ compactTimeFormat acq ++ "_" ++
    padZero 6 seq ++ ".csv"

/-- Model of the `bytes.Trim(xs, "\x00")` in `UPI.MarshalXML` (`chksvs.go:36-40`):
zero bytes are removed from both ends of the buffer. -/
def trimNul (bs : List Nat) : List Nat :=
  ((bs.dropWhile (fun b => b = 0)).reverse.dropWhile (fun b => b = 0)).reverse

/-- Go `string(bs)` for a trimmed byte buffer, faithful for ASCII
content (each byte below 128 is its own character). -/
def bytesText (bs : List Nat) : String :=
  String.mk (bs.map Char.ofNat)

/-- The text `UPI.MarshalXML` emits: the buffer trimmed of zero bytes on
both ends, decoded as text. -/
def upiText (bs : List Nat) : String :=
  bytesText (trimNul bs)

/-- The metadata document of `processMeta` (`chksvs.go:215-230`), reduced
to its structure: root element name, attribute list and flat child
elements, each child a `(tag, text)` pair.  Indentation is cosmetic and
not modelled. -/
structure XmlDoc where
  rootName : String
  attrs : List (String × String)
  children : List (String × String)
  deriving Repr, DecidableEq

/-- The document `xml.Encoder.Encode(elem)` produces at
`chksvs.go:215-230`: root `metadata` with attributes `svs-timestamp`
(the envelope timestamp in the precise rendering, via `MarshalXMLAttr`),
`svs-sequence` (the envelope sequence) and `svs-file` (the source file's
base name), then one child per `Metadata` field in declaration order —
`Magic` is tagged `xml:"-"` and skipped, `Acquisition` is emitted by
`Timestamp.MarshalXML` under the hard-coded name `acquisition-time`, the
numeric fields under their struct-tag names, and `UPI` by
`UPI.MarshalXML`, which ignores the `user-packet-info` struct tag and
emits the trimmed text under the hard-coded name `upi`. -/
def encodeMetadataElem (whn seq : Nat) (sourceBase : String) (info : Metadata) :
    XmlDoc where
  rootName := "metadata"
  attrs := [("svs-timestamp", preciseTimeFormat whn),
            ("svs-sequence", toString seq),
            ("svs-file", sourceBase)]
  children := [("acquisition-time", preciseTimeFormat info.Acquisition),
               ("originator-seq-no", toString info.Sequence),
               ("auxiliary-time", toString info.Auxiliary),
               ("originator-id", toString info.Source),
               ("source-x-size", toString info.X),
               ("source-y-size", toString info.Y),
               ("format", toString info.Format),
               ("fdrp", toString info.Drop),
               ("roi-x-offset", toString info.OffsetX),
               ("roi-x-size", toString info.SizeX),
               ("roi-y-offset", toString info.OffsetY),
               ("roi-y-size", toString info.SizeY),
               ("scale-x-size", toString info.ScaleX),
               ("scale-y-size", toString info.ScaleY),
               ("scale-far", toString info.Ratio),
               ("upi", upiText info.UPI)]

/-- The pure content of `processMeta` (`chksvs.go:193-231`): decode the
metadata record off the stream, then return the derived CSV base
filename, the shard index `info.Sequence / per` (`int64` floor division
of nonnegative operands), the metadata document, and the rest of the
stream.  `none` models the error return when the record read fails. -/
def processMetaModel (rest : List Nat) (upi sourceBase : String)
    (per seq whn : Nat) : Option (String × Nat × XmlDoc × List Nat) :=
  (readMetadata rest).map fun p =>
    (mkCsvFileName p.1.Source upi p.1.Acquisition p.1.Sequence,
     p.1.Sequence / per,
     encodeMetadataElem whn seq sourceBase p.1,
     p.2)

/-- Go's `strings.Split(s, "_")` over the character list of `s`: the
(possibly empty) runs between underscores, always at least one part. -/
def splitOnUS : List Char → List (List Char)
  | [] => [[]]
  | c :: cs =>
    let r := splitOnUS cs
    if c = '_' then [] :: r else (c :: r.headI) :: r.tail

/-- Go's `strings.Join(parts, "_")`. -/
def joinUS : List (List Char) → List Char
  | [] => []
  | [p] => p
  | p :: ps => p ++ '_' :: joinUS ps

/-- The identifier derivation of `chksvs.go:161-164`:
`parts := strings.Split(filepath.Base(file), "_")` and
`upi := strings.Join(parts[1:len(parts)-5], "_")`.  The Go slice
`parts[1:len(parts)-5]` is within bounds only when the base name has at
least six underscore-separated segments (`1 ≤ len(parts)-5`); for fewer
segments the slice expression panics (`slice bounds out of range`),
modelled as `none`. -/
def upiFromBase (base : String) : Option String :=
  let parts := splitOnUS base.data
  if 6 ≤ parts.length then
    some (String.mk (joinUS ((parts.drop 1).take (parts.length - 6))))
  else none

/-- The single error kind a fixed-width read can produce in this model
(Go's `io.EOF` / `io.ErrUnexpectedEOF` out of `binary.Read` and
`ReadByte`). -/
inductive ReadErr where
  | truncated
  deriving Repr, DecidableEq

/-- Read `n` consecutive `k`-byte little-endian values off the stream
(the inner loops of `processData`, `chksvs.go:255-261` and `265-271`). -/
def readVals (k : Nat) : Nat → List Nat → Option (List Nat × List Nat)
  | 0, buf => some ([], buf)
  | n + 1, buf =>
    (readLE k buf).bind fun p =>
      (readVals k n p.2).map fun q => (p.1 :: q.1, q.2)

/-- The CSV header row of `processData` (`chksvs.go:253-262`): literal
`t`, then one label `g2(t, <scale>)` per column. -/
def csvHeader (scales : List Nat) : List String :=
  "t" :: scales.map fun v => "g2(t, " ++ toString v ++ ")"

/-- The data-row loop of `processData` (`chksvs.go:263-273`):
`for i := 0; rs.Len() > 0; i++` reads `n` float32 words per iteration
(kept here as their raw 32-bit values) until the stream is empty, failing
when a read comes up short.  The loop is modelled with explicit `fuel`;
`none` (fuel exhausted with bytes remaining) represents an execution that
has not finished within `fuel` iterations — with `n = 0` the loop makes
no progress and no amount of fuel suffices. -/
def rowsAux (n : Nat) : Nat → List Nat → Option (Except ReadErr (List (List Nat)))
  | _, [] => some (.ok [])
  | 0, _ :: _ => none
  | fuel + 1, b :: bs =>
    match readVals 4 n (b :: bs) with
    | none => some (.error .truncated)
    | some p => (rowsAux n fuel p.2).map fun r => r.map (p.1 :: ·)

/-- The parse of the trailing sample block that `processData` performs
(`chksvs.go:249-273`): the column-count byte, the per-column 16-bit scale
words, then the row loop (run with fuel equal to the remaining byte
count, enough for any per-iteration progress of at least one byte). -/
def parseSampleBlock (buf : List Nat) :
    Option (Except ReadErr (List String × List (List Nat))) :=
  match readU8 buf with
  | none => some (.error .truncated)
  | some p =>
    match readVals 2 p.1 p.2 with
    | none => some (.error .truncated)
    | some q =>
      (rowsAux p.1 q.2.length q.2).map fun r =>
        r.map fun rows => (csvHeader q.1, rows)

/-- A filesystem effect of the pipeline: `os.MkdirAll` or `os.Create`,
with the path kept as its components. -/
inductive FsOp where
  | mkdirAll (path : List String)
  | createFile (path : List String)
  deriving Repr, DecidableEq

/-- The outcome of `processFile`: `skipped` is the `("", nil)` return for
an unrecognized tag, `produced` the non-empty path with nil error,
`failed` a non-nil error return, `panicked` a run that dies in the
identifier slice expression, `diverged` a run whose row loop never
terminates. -/
inductive PResult where
  | skipped
  | produced (path : List String)
  | failed (e : ReadErr)
  | panicked
  | diverged
  deriving Repr, DecidableEq

/-- Model of `processFile` (`chksvs.go:142-180`) over an in-memory stream, with
the filesystem modelled as an effect log (directory creation and file
creation always succeed): read the 16-byte envelope (error on a short
file), silently skip unless the tag is `"SVS "`, derive the identifier
from the base name (panic for fewer than six segments), create
`<datadir>/<upi>`, then either write the intro file (sequence 1) or run
`processMeta` (shard directory + `.csv.xml` file) followed by
`processData` (the CSV file, created before the sample block is
parsed). -/
def processFile (bytes : List Nat) (base datadir : String) (per : Nat) :
    PResult × List FsOp :=
  match readEnvelope bytes with
  | none => (.failed .truncated, [])
  | some (env, rest) =>
    if env.FCC = magicBytes then
      match upiFromBase base with
      | none => (.panicked, [])
      | some upi =>
        let upidir := [datadir, upi]
        if env.Seq = 1 then
          (.produced (upidir ++ [upi ++ ".ini"]),
           [.mkdirAll upidir, .createFile (upidir ++ [upi ++ ".ini"])])
        else
          match processMetaModel rest upi base per env.Seq env.When with
          | none => (.failed .truncated, [.mkdirAll upidir])
          | some r =>
            let sharddir := upidir ++ [padZero 6 r.2.1]
            let eff := [FsOp.mkdirAll upidir, FsOp.mkdirAll sharddir,
                        FsOp.createFile (sharddir ++ [r.1 ++ ".xml"]),
                        FsOp.createFile (sharddir ++ [r.1])]
            match parseSampleBlock r.2.2.2 with
            | none => (.diverged, eff)
            | some (.error e) => (.failed e, eff)
            | some (.ok _) => (.produced (sharddir ++ [r.1]), eff)
    else (.skipped, [])

/-- Phase of the bounded concurrent runner in `main` (`chksvs.go:113-139`):
feeding the input sequence, draining (the final
`sema.Acquire(ctx, *workers)` pending), finished (the final acquire
succeeded). -/
inductive Phase where
  | feeding
  | draining
  | finished
  deriving Repr, DecidableEq

/-- State of the bounded concurrent runner: the paths not yet started,
the free units of the weighted semaphore, the pipelines in flight, the
pipelines completed, and the phase. -/
structure RunState where
  queued : List String
  avail : Nat
  running : Nat
  completed : Nat
  phase : Phase
  deriving Repr, DecidableEq

/-- Initial runner state: the whole input sequence queued, all `w`
semaphore units free (`semaphore.NewWeighted(*workers)`), nothing in
flight. -/
def initRun (w : Nat) (files : List String) : RunState :=
  ⟨files, w, 0, 0, .feeding⟩

/-- One step of the runner of `chksvs.go:113-139`: `start` is
`sema.Acquire(ctx, 1)` followed by `go func(...)` for the next queued
path (needs a free unit); `complete` is a goroutine finishing — whatever
its outcome — and running its deferred `sema.Release(1)`; `drainStart` is
the `for` loop exhausting the input sequence; `drainDone` is the final
`sema.Acquire(ctx, *workers)` (needs all `w` units free). -/
inductive RunStep (w : Nat) : RunState → RunState → Prop where
  | start (f : String) (q : List String) (a r c : Nat) :
      RunStep w ⟨f :: q, a + 1, r, c, .feeding⟩ ⟨q, a, r + 1, c, .feeding⟩
  | complete (q : List String) (a r c : Nat) (ph : Phase) :
      RunStep w ⟨q, a, r + 1, c, ph⟩ ⟨q, a + 1, r, c + 1, ph⟩
  | drainStart (a r c : Nat) :
      RunStep w ⟨[], a, r, c, .feeding⟩ ⟨[], a, r, c, .draining⟩
  | drainDone (a r c : Nat) (h : w ≤ a) :
      RunStep w ⟨[], a, r, c, .draining⟩ ⟨[], a - w, r, c, .finished⟩

/-- Inductive invariant of the runner: the free units and the in-flight
pipelines always account for all `w` semaphore units until the final
drain holds them, the queue is empty from the drain on, and at most `w`
pipelines are in flight. -/
def RunInv (w : Nat) (s : RunState) : Prop :=
  s.running ≤ w ∧
  (s.phase = .feeding → s.avail + s.running = w) ∧
  (s.phase = .draining → s.avail + s.running = w ∧ s.queued = []) ∧
  (s.phase = .finished → s.queued = [] ∧ s.running = 0 ∧ s.avail = 0)

theorem runInv_init (w : Nat) (files : List String) : RunInv w (initRun w files) := by
  simp [RunInv, initRun]

theorem runInv_step {w : Nat} {s t : RunState} (h : RunStep w s t)
    (hi : RunInv w s) : RunInv w t := by
  cases h with
  | start f q a r c =>
    obtain ⟨h1, h2, h3, h4⟩ := hi
    refine ⟨?_, ?_, ?_, ?_⟩ <;> simp_all <;> omega
  | complete q a r c ph =>
    obtain ⟨h1, h2, h3, h4⟩ := hi
    cases ph <;> (refine ⟨?_, ?_, ?_, ?_⟩ <;> simp_all <;> omega)
  | drainStart a r c =>
    obtain ⟨h1, h2, h3, h4⟩ := hi
    refine ⟨?_, ?_, ?_, ?_⟩ <;> simp_all <;> omega
  | drainDone a r c hle =>
    obtain ⟨h1, h2, h3, h4⟩ := hi
    refine ⟨?_, ?_, ?_, ?_⟩ <;> simp_all <;> omega

theorem runInv_reachable {w : Nat} {files : List String} {s : RunState}
    (h : Relation.ReflTransGen (RunStep w) (initRun w files) s) :
    RunInv w s := by
  induction h with
  | refl => exact runInv_init w files
  | tail _ hstep ih => exact runInv_step hstep ih

/-- C8: in every reachable state of the bounded concurrent runner, at
most `w` pipelines are running simultaneously — each started file holds
one of the `w` semaphore units until its completion releases it — and the
finished state (the final `Acquire(ctx, workers)` succeeded) is reached
only with the input sequence exhausted and no pipeline in flight. -/
theorem c8_bounded_workers (w : Nat) (files : List String) (s : RunState)
    (h : Relation.ReflTransGen (RunStep w) (initRun w files) s) :
    s.running ≤ w ∧ (s.phase = .finished → s.queued = [] ∧ s.running = 0) := by
  have hi := runInv_reachable h
  exact ⟨hi.1, fun hf => ⟨(hi.2.2.2 hf).1, (hi.2.2.2 hf).2.1⟩⟩

/-- Witness for C8 at a concrete state: the initial state of a run with
two workers and one queued file is reachable and satisfies the bound. -/
theorem c8_bounded_workers_witness :
    (initRun 2 ["f"]).running ≤ 2 ∧
      ((initRun 2 ["f"]).phase = .finished →
        (initRun 2 ["f"]).queued = [] ∧ (initRun 2 ["f"]).running = 0) :=
  c8_bounded_workers 2 ["f"] (initRun 2 ["f"]) Relation.ReflTransGen.refl

theorem readVals_length {k n : Nat} :
    ∀ {buf : List Nat} {p : List Nat × List Nat}, readVals k n buf = some p →
      k * n ≤ buf.length ∧ p.2.length = buf.length - k * n := by
  induction n with
  | zero =>
    intro buf p h
    simp [readVals] at h
    simp [← h]
  | succ n ih =>
    intro buf p h
    rw [readVals, readLE_eq] at h
    by_cases hk : k ≤ buf.length
    · rw [if_pos hk] at h
      simp only [Option.bind_eq_bind, Option.some_bind, Option.map_eq_some'] at h
      obtain ⟨q, hq, rfl⟩ := h
      have hrec := ih hq
      simp only [List.length_drop] at hrec
      rw [Nat.mul_succ]
      constructor
      · have := hrec.1
        omega
      · simp only [hrec.2]
        omega
    · rw [if_neg hk] at h
      simp at h

/-- C9: the data-row loop of `processData` terminates for every finite
input when the column count is at least 1 — each iteration either
consumes `4·n ≥ 4` bytes of the remaining buffer or fails with a read
error, so fuel equal to the buffer length is always enough and the
fuel-exhaustion outcome `none` is impossible. -/
theorem c9_row_loop_terminates (n : Nat) (hn : 1 ≤ n) :
    ∀ (fuel : Nat) (buf : List Nat), buf.length ≤ fuel →
      rowsAux n fuel buf ≠ none := by
  intro fuel
  induction fuel with
  | zero =>
    intro buf hb
    cases buf with
    | nil => simp [rowsAux]
    | cons b bs => simp at hb
  | succ fuel ih =>
    intro buf hb
    cases buf with
    | nil => simp [rowsAux]
    | cons b bs =>
      rw [rowsAux]
      cases hv : readVals 4 n (b :: bs) with
      | none => simp
      | some p =>
        have hl := readVals_length hv
        have hfit : p.2.length ≤ fuel := by
          simp only [List.length_cons] at hl hb
          omega
        have hne := ih p.2 hfit
        cases hr : rowsAux n fuel p.2 with
        | none => exact absurd hr hne
        | some r => simp [hr]

/-- Witness for C9: one column, one complete 4-byte row, fuel equal to
the buffer length — the loop finishes. -/
theorem c9_row_loop_terminates_witness : rowsAux 1 4 [0, 0, 0, 0] ≠ none :=
  c9_row_loop_terminates 1 (by decide) 4 [0, 0, 0, 0] (by decide)

/-- C2: evaluation of the derived-filename builder at the failing input —
originator-id `0x0A`, identifier `FOO`, acquisition tick `0` (which is
1980-01-06T00:00:00Z) and originator sequence `7`.  The layout string
`20060102_150406` makes Go render `year % 100` (here `80`), not the
seconds (here `00`), in the last two digits, so the name differs from the
`yyyyMMdd_HHmmss` form the claim states. -/
theorem c2_filename_renders_year_not_seconds :
    mkCsvFileName 10 "FOO" 0 7 = "000a_FOO_19800106_000080_000007.csv" ∧
    mkCsvFileName 10 "FOO" 0 7 ≠ "000a_FOO_19800106_000000_000007.csv" :=
  ⟨by decide, by decide⟩

/-- C5 (amended): every input file of at least 16 bytes whose first 4
bytes differ from `"SVS "` is skipped silently — empty result, nil error,
no directory or file created. -/
theorem c5_unrecognized_skipped (bytes : List Nat) (base datadir : String)
    (per : Nat) (hlen : 16 ≤ bytes.length) (hm : bytes.take 4 ≠ magicBytes) :
    processFile bytes base datadir per = (.skipped, []) := by
  unfold processFile readEnvelope
  rw [if_pos hlen]
  simp [hm]

/-- Witness for C5 (amended) at a concrete input: 16 zero bytes. -/
theorem c5_unrecognized_skipped_witness :
    processFile (List.replicate 16 0) "b" "d" 512 = (.skipped, []) :=
  c5_unrecognized_skipped (List.replicate 16 0) "b" "d" 512 (by decide) (by decide)

/-- C5 counterexample: a 4-byte file whose first 4 bytes are not `"SVS "`
is not skipped silently — the 16-byte envelope read fails first and
`processFile` returns an error, not the empty/nil outcome the claim
states for every file with a foreign tag. -/
theorem c5_counterexample :
    processFile [65, 66, 67, 68] "b" "d" 512 = (.failed .truncated, []) ∧
    [65, 66, 67, 68].take 4 ≠ magicBytes :=
  ⟨by decide, by decide⟩

/-- C3 counterexample: the shard index is computed from the metadata
record's originator sequence number, not from the envelope sequence
counter.  With envelope sequence 1025 and shard size 512 the claim says
shard 2, but a record whose originator-seq-no is 0 lands in shard 0. -/
theorem c3_counterexample :
    ((processMetaModel (List.replicate 74 0) "U" "src" 512 1025 0).map
        fun r => r.2.1) = some 0 ∧
    (1025 : Nat) / 512 = 2 ∧ (0 : Nat) ≠ 2 :=
  ⟨by decide, by decide, by decide⟩

/-- C3 (amended): for every data record whose metadata decodes, the shard
subdirectory created (and used for the output files) is named with the
floor of the metadata originator sequence number divided by
`filesPerDirectory`, zero-padded to 6 digits. -/
theorem c3_shard_from_originator_seq (bytes : List Nat) (base datadir : String)
    (per : Nat) (env : Envelope) (rest : List Nat) (upi : String)
    (info : Metadata) (rest2 : List Nat)
    (henv : readEnvelope bytes = some (env, rest))
    (hm : env.FCC = magicBytes) (hseq : env.Seq ≠ 1)
    (hupi : upiFromBase base = some upi)
    (hmeta : readMetadata rest = some (info, rest2)) :
    FsOp.mkdirAll [datadir, upi, padZero 6 (info.Sequence / per)]
      ∈ (processFile bytes base datadir per).2 := by
  unfold processFile processMetaModel
  rw [henv]
  simp only [hm, if_true, hupi, if_neg hseq, hmeta, Option.map_some']
  cases hps : parseSampleBlock rest2 with
  | none => simp
  | some e => cases e <;> simp

/-- Witness for C3 (amended): a concrete recognized data record with
envelope sequence 1025, all-zero metadata (originator-seq-no 0) and shard
size 512 — the shard directory is `<datadir>/FOO/000000`. -/
theorem c3_shard_from_originator_seq_witness :
    FsOp.mkdirAll ["d", "FOO", padZero 6 (0 / 512)]
      ∈ (processFile
          (magicBytes ++ [0, 0, 4, 1] ++ List.replicate 8 0 ++
            List.replicate 74 0)
          "x_FOO_a_b_c_d_e" "d" 512).2 :=
  c3_shard_from_originator_seq _ "x_FOO_a_b_c_d_e" "d" 512
    ⟨magicBytes, 1025, 0⟩ (List.replicate 74 0) "FOO"
    ⟨0, 0, 0, 0, 0, 0, 0, 0, 0, 0, 0, 0, 0, 0, 0, 0, List.replicate 32 0⟩ []
    (by decide) (by decide) (by decide) (by decide) (by decide)

theorem processFile_panicked_upi (bytes : List Nat) (base datadir : String)
    (per : Nat) (h : (processFile bytes base datadir per).1 = .panicked) :
    upiFromBase base = none := by
  unfold processFile at h
  repeat' split at h
  all_goals simp_all

/-- C4 counterexample: a recognized file whose base name has a single
underscore-free segment is not "still processed" — the slice
`parts[1:len(parts)-5]` is out of bounds and the pipeline dies before
producing anything. -/
theorem c4_counterexample :
    processFile (magicBytes ++ List.replicate 12 0) "file" "d" 512
        = (.panicked, []) ∧
    (splitOnUS "file".data).length < 6 :=
  ⟨by decide, by decide⟩

/-- C4 (amended): when the base name has at least six
underscore-separated segments, the identifier is the middle segments
(drop the first and the last five) rejoined with underscores — empty when
there are exactly six — and the pipeline proceeds without panicking; with
fewer than six segments the slice expression is out of bounds and the
pipeline panics instead of processing the file. -/
theorem c4_identifier_slice (bytes : List Nat) (base datadir : String)
    (per : Nat) (hseg : 6 ≤ (splitOnUS base.data).length) :
    upiFromBase base
        = some (String.mk (joinUS (((splitOnUS base.data).drop 1).take
            ((splitOnUS base.data).length - 6)))) ∧
    (processFile bytes base datadir per).1 ≠ .panicked := by
  have hupi : upiFromBase base
      = some (String.mk (joinUS (((splitOnUS base.data).drop 1).take
          ((splitOnUS base.data).length - 6)))) := by
    simp [upiFromBase, hseg]
  refine ⟨hupi, fun h => ?_⟩
  have hnone := processFile_panicked_upi bytes base datadir per h
  rw [hupi] at hnone
  exact Option.noConfusion hnone

/-- Witness for C4 (amended): a seven-segment base name yields the single
middle segment as identifier and no panic. -/
theorem c4_identifier_slice_witness :
    upiFromBase "a_b_c_d_e_f_g"
        = some (String.mk (joinUS (((splitOnUS "a_b_c_d_e_f_g".data).drop 1).take
            ((splitOnUS "a_b_c_d_e_f_g".data).length - 6)))) ∧
    (processFile [] "a_b_c_d_e_f_g" "d" 512).1 ≠ .panicked :=
  c4_identifier_slice [] "a_b_c_d_e_f_g" "d" 512 (by decide)

/-- C7 (amended): the metadata document carries the provenance
attributes (`svs-timestamp` in the precise rendering, `svs-sequence`,
`svs-file`) and every metadata field under its tag — `acquisition-time`
in the precise textual rendering, the numeric fields under the struct-tag
names — but the identifier appears as trimmed text under the element name
`upi` (the hard-coded name in `UPI.MarshalXML`), and no element named
`user-packet-info` exists. -/
theorem c7_metadata_document_fields (whn seq : Nat) (src : String)
    (info : Metadata) :
    (encodeMetadataElem whn seq src info).rootName = "metadata" ∧
    (encodeMetadataElem whn seq src info).attrs.lookup "svs-timestamp"
        = some (preciseTimeFormat whn) ∧
    (encodeMetadataElem whn seq src info).attrs.lookup "svs-sequence"
        = some (toString seq) ∧
    (encodeMetadataElem whn seq src info).attrs.lookup "svs-file" = some src ∧
    (encodeMetadataElem whn seq src info).children.lookup "acquisition-time"
        = some (preciseTimeFormat info.Acquisition) ∧
    (encodeMetadataElem whn seq src info).children.lookup "originator-seq-no"
        = some (toString info.Sequence) ∧
    (encodeMetadataElem whn seq src info).children.lookup "auxiliary-time"
        = some (toString info.Auxiliary) ∧
    (encodeMetadataElem whn seq src info).children.lookup "originator-id"
        = some (toString info.Source) ∧
    (encodeMetadataElem whn seq src info).children.lookup "source-x-size"
        = some (toString info.X) ∧
    (encodeMetadataElem whn seq src info).children.lookup "source-y-size"
        = some (toString info.Y) ∧
    (encodeMetadataElem whn seq src info).children.lookup "format"
        = some (toString info.Format) ∧
    (encodeMetadataElem whn seq src info).children.lookup "fdrp"
        = some (toString info.Drop) ∧
    (encodeMetadataElem whn seq src info).children.lookup "roi-x-offset"
        = some (toString info.OffsetX) ∧
    (encodeMetadataElem whn seq src info).children.lookup "roi-x-size"
        = some (toString info.SizeX) ∧
    (encodeMetadataElem whn seq src info).children.lookup "roi-y-offset"
        = some (toString info.OffsetY) ∧
    (encodeMetadataElem whn seq src info).children.lookup "roi-y-size"
        = some (toString info.SizeY) ∧
    (encodeMetadataElem whn seq src info).children.lookup "scale-x-size"
        = some (toString info.ScaleX) ∧
    (encodeMetadataElem whn seq src info).children.lookup "scale-y-size"
        = some (toString info.ScaleY) ∧
    (encodeMetadataElem whn seq src info).children.lookup "scale-far"
        = some (toString info.Ratio) ∧
    (encodeMetadataElem whn seq src info).children.lookup "upi"
        = some (upiText info.UPI) ∧
    (encodeMetadataElem whn seq src info).children.lookup "user-packet-info"
        = none := by
  simp [encodeMetadataElem, List.lookup]

/-- C7 counterexample: for a concrete record whose user-packet-info
buffer holds `FOO` (zero-padded), the emitted document has no element
named `user-packet-info`; the identifier text appears under the element
name `upi` instead. -/
theorem c7_counterexample :
    ((encodeMetadataElem 0 2 "f"
        ⟨0, 0, 7, 0, 10, 0, 0, 0, 0, 0, 0, 0, 0, 0, 0, 0,
          [70, 79, 79] ++ List.replicate 29 0⟩).children.lookup
        "user-packet-info" = none) ∧
    ((encodeMetadataElem 0 2 "f"
        ⟨0, 0, 7, 0, 10, 0, 0, 0, 0, 0, 0, 0, 0, 0, 0, 0,
          [70, 79, 79] ++ List.replicate 29 0⟩).children.lookup
        "upi" = some "FOO") :=
  ⟨by decide, by decide⟩

/-- C10 (amended): for every recognized file whose identifier derivation
succeeds (base name with at least six segments), the per-identifier
directory `<datadir>/<upi>` is created before the sequence-counter
branch; and when the metadata decode of a data record fails, that
directory creation is the only filesystem effect — no shard directory,
CSV file or XML file is created. -/
theorem c10_upidir_created_first (bytes : List Nat) (base datadir : String)
    (per : Nat) (env : Envelope) (rest : List Nat) (upi : String)
    (henv : readEnvelope bytes = some (env, rest))
    (hm : env.FCC = magicBytes)
    (hupi : upiFromBase base = some upi) :
    FsOp.mkdirAll [datadir, upi] ∈ (processFile bytes base datadir per).2 ∧
    (env.Seq ≠ 1 → readMetadata rest = none →
      (processFile bytes base datadir per).2 = [FsOp.mkdirAll [datadir, upi]]) := by
  unfold processFile processMetaModel
  rw [henv]
  simp only [hm, if_true, hupi]
  constructor
  · by_cases hs : env.Seq = 1
    · simp [hs]
    · simp only [if_neg hs]
      cases hmeta : readMetadata rest with
      | none => simp
      | some p =>
        simp only [Option.map_some']
        cases hps : parseSampleBlock p.2 with
        | none => simp
        | some e => cases e <;> simp
  · intro hs hmeta
    simp [if_neg hs, hmeta]

/-- Witness for C10 (amended): a concrete 16-byte recognized data record
(sequence 2, no metadata bytes) — the per-identifier directory is created
and is the only effect. -/
theorem c10_upidir_created_first_witness :
    FsOp.mkdirAll ["d", "FOO"]
      ∈ (processFile (magicBytes ++ [0, 0, 0, 2] ++ List.replicate 8 0)
          "x_FOO_a_b_c_d_e" "d" 512).2 ∧
    ((⟨magicBytes, 2, 0⟩ : Envelope).Seq ≠ 1 → readMetadata [] = none →
      (processFile (magicBytes ++ [0, 0, 0, 2] ++ List.replicate 8 0)
          "x_FOO_a_b_c_d_e" "d" 512).2 = [FsOp.mkdirAll ["d", "FOO"]]) :=
  c10_upidir_created_first (magicBytes ++ [0, 0, 0, 2] ++ List.replicate 8 0)
    "x_FOO_a_b_c_d_e" "d" 512 ⟨magicBytes, 2, 0⟩ [] "FOO"
    (by decide) (by decide) (by decide)

/-- C10 counterexample: a recognized file (tag `"SVS "`) whose base name
has fewer than six segments dies in the identifier slice before any
directory is created, so the per-identifier directory does not exist
afterwards even though the file was recognized. -/
theorem c10_counterexample :
    (magicBytes ++ List.replicate 12 0).take 4 = magicBytes ∧
    processFile (magicBytes ++ List.replicate 12 0) "x" "d" 512
        = (.panicked, []) :=
  ⟨by decide, by decide⟩

end Chksvs
